import Mathlib

/-!
A verification development for the rsorth runtime (a concatenative, stack-based
scripting language implemented in Rust).  The definitions below are shallow
embeddings of the Rust source:

* `src/lang/source_buffer.rs` and `src/lang/tokenizing.rs` (source buffer, tokens,
  tokenizer);
* `src/runtime/data_structures/value.rs`, `value_vec.rs`, `value_hash.rs`,
  `data_object.rs`, `byte_buffer.rs`, `contextual_list.rs`, `dictionary.rs`
  (the value model and containers);
* `src/runtime/interpreter/sorth_interpreter.rs` (stack operations and the
  bytecode execution loop `execute_code`);
* `src/runtime/built_ins/base_words/stack_words.rs` and
  `math_logic_and_bit_words.rs` (the `pick`, `push-to` and `+` words);
* `src/runtime/built_ins/ffi_words.rs` (the argument-buffer sizing fragment).

Modelling conventions, used throughout and noted again at each definition they
affect:

* Rust `i64` payloads are modelled by `Int`.  None of the theorems below
  exercise `i64` overflow (which panics in debug builds and wraps in release
  builds); where the source converts with `as usize` semantics that wrap, the
  wrap is written out explicitly as `% 2 ^ 64`.
* Rust `f64` payloads are modelled by `ℚ`.  This model is exact for every
  float operation the theorems below exercise (the constant `0.0`, equality of
  identical values, addition of small values); IEEE rounding, `NaN` and the
  decimal rendering of `f64` are not modelled, and no theorem below depends on
  them.
* `Rc<RefCell<...>>` container handles are modelled by attaching a numeric
  identity (`id`) to each container node; two handles alias exactly when they
  carry the same `id`.  Fresh allocation threads a counter.
* A Rust `ScriptError` is modelled by its message text alone (the source also
  carries an optional location and a call-stack snapshot, which none of the
  claims read).
* Rust operations that can panic (`Vec` indexing, `unwrap`, integer overflow
  in debug builds, releasing the last context) return the distinguished
  `Res.panic` outcome rather than a script error.
-/

namespace RSorth

/-- Outcome of a fallible Rust operation: `ok` models `Ok`, `err` models
`Err(ScriptError)` (carrying the message text), and `panic` models a Rust
panic (`unwrap` on `None`, out-of-bounds `Vec` access, arithmetic underflow in
a debug build, releasing the last context). -/
inductive Res (α : Type) where
  | ok (a : α)
  | err (msg : String)
  | panic (msg : String)
deriving DecidableEq, Repr

/-- `SourceLocation` (source_buffer.rs): path plus 1-based line and column. -/
structure SourceLocation where
  path : String
  line : Nat
  column : Nat
deriving DecidableEq, Repr

/-- `SourceLocation::new()`: the default location. -/
def SourceLocation.new : SourceLocation := ⟨"unspecified", 1, 1⟩

/-- `NumberType` (tokenizing.rs): the payload of a number token.  The `f64`
payload is modelled by `ℚ` (see the file header). -/
inductive NumberType where
  | int (n : Int)
  | float (q : ℚ)
deriving DecidableEq, Repr

/-- `PartialEq for NumberType` (tokenizing.rs, lines 24-37): mixed
comparisons widen the integer to a float. -/
def numberTypeEq : NumberType → NumberType → Bool
  | .int a, .int b => a == b
  | .float a, .float b => a == b
  | .float a, .int b => a == (b : ℚ)
  | .int a, .float b => (a : ℚ) == b

/-- `Token` (tokenizing.rs): number, string or word, each with a location. -/
inductive Token where
  | number (loc : SourceLocation) (n : NumberType)
  | string (loc : SourceLocation) (s : String)
  | word (loc : SourceLocation) (s : String)
deriving DecidableEq, Repr

/-- The derived `PartialEq for Token`: variant-wise, with the number payload
compared through `numberTypeEq`. -/
def tokenEq : Token → Token → Bool
  | .number l a, .number m b => l == m && numberTypeEq a b
  | .string l a, .string m b => l == m && a == b
  | .word l a, .word m b => l == m && a == b
  | _, _ => false

mutual

/-- `Value` (value.rs): the tagged runtime value.  The `Vec` and `DataObject`
variants carry the `Rc` identity of their heap cell as `id` (two values alias
exactly when their ids coincide) together with the cell contents.  The
`DataObject` definition pointer is modelled by the definition name, the only
part of it these claims read. -/
inductive Value where
  | none
  | int (n : Int)
  | float (q : ℚ)
  | bool (b : Bool)
  | str (s : String)
  | vec (id : Nat) (elems : List Value)
  | dataObject (id : Nat) (defName : String) (fields : List Value)
  | token (t : Token)
  | code (c : List Instruction)

/-- `Op` (code.rs): the bytecode operations. -/
inductive Op where
  | defVariable (v : Value)
  | defConstant (v : Value)
  | readVariable
  | writeVariable
  | execute (v : Value)
  | pushConstantValue (v : Value)
  | markLoopExit (v : Value)
  | unmarkLoopExit
  | markCatch (v : Value)
  | unmarkCatch
  | markContext
  | releaseContext
  | jump (v : Value)
  | jumpIfZero (v : Value)
  | jumpIfNotZero (v : Value)
  | jumpLoopStart
  | jumpLoopExit
  | jumpTarget (v : Value)

/-- `Instruction` (code.rs): an op with an optional source location. -/
inductive Instruction where
  | mk (location : Option SourceLocation) (op : Op)

end

/-- The location component of an instruction. -/
def Instruction.location : Instruction → Option SourceLocation
  | .mk loc _ => loc

/-- The op component of an instruction. -/
def Instruction.op : Instruction → Op
  | .mk _ op => op

/-- `ByteCode` (code.rs): an instruction sequence. -/
abbrev ByteCode := List Instruction

/-- `Value::is_int` (value.rs, `is_variant!` macro). -/
def Value.isInt : Value → Bool
  | .int _ => true
  | _ => false

/-- `Value::is_float`. -/
def Value.isFloat : Value → Bool
  | .float _ => true
  | _ => false

/-- `Value::is_bool`. -/
def Value.isBool : Value → Bool
  | .bool _ => true
  | _ => false

/-- `Value::is_string` — true only for the `String` variant (not for string
tokens). -/
def Value.isString : Value → Bool
  | .str _ => true
  | _ => false

/-- `Value::is_vec`. -/
def Value.isVec : Value → Bool
  | .vec _ _ => true
  | _ => false

/-- `Value::is_data_object`. -/
def Value.isDataObject : Value → Bool
  | .dataObject _ _ _ => true
  | _ => false

/-- `Value::is_code`. -/
def Value.isCode : Value → Bool
  | .code _ => true
  | _ => false

/-- `Value::is_none` (used by the FFI return handling). -/
def Value.isNone : Value → Bool
  | .none => true
  | _ => false

/-- `Value::either_is_string`: `a.is_string() || b.is_string()`. -/
def Value.eitherIsString (a b : Value) : Bool := a.isString || b.isString

/-- `Value::either_is_float`. -/
def Value.eitherIsFloat (a b : Value) : Bool := a.isFloat || b.isFloat

/-- `Value::either_is_int`. -/
def Value.eitherIsInt (a b : Value) : Bool := a.isInt || b.isInt

/-- `Value::either_is_bool`. -/
def Value.eitherIsBool (a b : Value) : Bool := a.isBool || b.isBool

/-- `Value::is_numeric` (value.rs, lines 299-315): `None`, `Int`, `Float`,
`Bool` and number tokens count as numeric. -/
def Value.isNumeric : Value → Bool
  | .none => true
  | .int _ => true
  | .float _ => true
  | .bool _ => true
  | .token (.number _ _) => true
  | _ => false

/-- `Value::both_are_numeric`. -/
def Value.bothAreNumeric (a b : Value) : Bool := a.isNumeric && b.isNumeric

/-- `Value::is_stringable` (value.rs, lines 322-340): `None`, `Int`, `Float`,
`String` and string or word tokens. -/
def Value.isStringable : Value → Bool
  | .none => true
  | .int _ => true
  | .float _ => true
  | .str _ => true
  | .token (.string _ _) => true
  | .token (.word _ _) => true
  | _ => false

/-- Truncation toward zero of a rational, mirroring the Rust `f64 as i64`
cast, which truncates and saturates at the `i64` bounds. -/
def ratTruncSat (q : ℚ) : Int :=
  max (-(2 ^ 63)) (min (2 ^ 63 - 1) (q.num.tdiv (q.den : Int)))

/-- `Value::get_string_val` (value.rs, lines 342-359).  The source panics on
values that are not stringable; that unreachable branch (always guarded by
`is_stringable` at every call site the theorems exercise) is modelled as `""`.
The rendering of a `Float` uses the `ℚ` stand-in and is exercised by no
theorem below. -/
def Value.getStringVal : Value → String
  | .none => ""
  | .int n => toString n
  | .float q => toString q
  | .str s => s
  | .token (.string _ s) => s
  | .token (.word _ w) => w
  | _ => ""

/-- `Value::get_bool_val` (value.rs, lines 361-372).  Note the `_ => true`
catch-all: containers and code blocks coerce to `true`. -/
def Value.getBoolVal : Value → Bool
  | .none => false
  | .int n => n != 0
  | .float q => q != 0
  | .bool b => b
  | .str s => !s.isEmpty
  | _ => true

/-- `Value::get_int_val` (value.rs, lines 374-395).  The source panics on
non-numeric values; that branch (guarded by `is_numeric` at the call sites the
theorems exercise) is modelled as `0`. -/
def Value.getIntVal : Value → Int
  | .none => 0
  | .int n => n
  | .float q => ratTruncSat q
  | .bool b => if b then 1 else 0
  | .token (.number _ (.int n)) => n
  | .token (.number _ (.float q)) => ratTruncSat q
  | _ => 0

/-- `Value::get_float_val` (value.rs, lines 397-418).  The `i64 as f64` cast
is modelled by the exact cast into `ℚ` (exact for every value the theorems
exercise); the panic branch for non-numeric values is modelled as `0`. -/
def Value.getFloatVal : Value → ℚ
  | .none => 0
  | .int n => (n : ℚ)
  | .float q => q
  | .bool b => if b then 1 else 0
  | .token (.number _ (.int n)) => (n : ℚ)
  | .token (.number _ (.float q)) => q
  | _ => 0

mutual

/-- `PartialEq for Value` (value.rs, lines 58-108).  Faithful to the source,
including its `let a = self.get_float_val(); let b = self.get_float_val();`
and `let a = self.get_int_val(); let b = self.get_int_val();` branches (lines
66-67 and 73-74), which read both operands of the comparison from `self`. -/
def valueEq (a b : Value) : Bool :=
  if Value.bothAreNumeric a b then
    if Value.eitherIsFloat a b then
      a.getFloatVal == a.getFloatVal
    else if Value.eitherIsInt a b then
      a.getIntVal == a.getIntVal
    else if Value.eitherIsBool a b then
      a.getBoolVal == b.getBoolVal
    else
      false
  else if a.isStringable && b.isStringable then
    a.getStringVal == b.getStringVal
  else
    match a, b with
    | .vec _ xs, .vec _ ys => valueVecEq xs ys
    | .dataObject _ n xs, .dataObject _ m ys => n == m && dataFieldsEq xs ys
    | .token t, .token u => tokenEq t u
    | _, _ => false

/-- The derived `PartialEq for ValueVec` (value_vec.rs): `VecDeque` equality,
length-sensitive and element-wise. -/
def valueVecEq : List Value → List Value → Bool
  | [], [] => true
  | x :: xs, y :: ys => valueEq x y && valueVecEq xs ys
  | _, _ => false

/-- The field loop of `PartialEq for DataObject` (data_object.rs, lines
267-286): it walks the indices of `self.fields` only, so `other` may have
extra trailing fields; when `other` has fewer fields the source panics on the
out-of-bounds index, modelled here as `false`. -/
def dataFieldsEq : List Value → List Value → Bool
  | [], _ => true
  | _ :: _, [] => false
  | x :: xs, y :: ys => valueEq x y && dataFieldsEq xs ys

end

/-- `ValueHash` (value_hash.rs) wraps a `HashMap<Value, Value>`; modelled as
its entry list.  Key location goes through the `Value` equality, mirroring
the `Eq` the Rust `HashMap` consults. -/
abbrev ValueHash := List (Value × Value)

/-- `HashMap::get` on a `ValueHash`. -/
def hashGet (h : ValueHash) (k : Value) : Option Value :=
  (h.find? (fun e => valueEq e.1 k)).map Prod.snd

/-- `HashMap::contains_key` on a `ValueHash`. -/
def hashContainsKey (h : ValueHash) (k : Value) : Bool :=
  (h.find? (fun e => valueEq e.1 k)).isSome

/-- `PartialEq for ValueHash` (value_hash.rs, lines 30-49): iterates over the
entries of `self` only, checking that `other` contains each key with an equal
value (`other.values.get(key) != Some(value)` compares the options through
`Value` equality). -/
def valueHashEq (a b : ValueHash) : Bool :=
  a.all (fun e =>
    hashContainsKey b e.1 &&
    (match hashGet b e.1 with
     | some v => valueEq v e.2
     | none => false))

mutual

/-- `DeepClone for Value` (value.rs, lines 460-477) together with
`DeepClone for ValueVec` (value_vec.rs, lines 59-77) and `DeepClone for
DataObject` (data_object.rs, lines 318-331).  `Vec` and `DataObject` contents
are cloned recursively into freshly allocated cells (the threaded counter
supplies the fresh `Rc` identities); `Token` and `Code` payloads are cloned
with the ordinary `Clone`, which preserves the `Rc` identities inside a code
block.  The `DataObject` definition pointer is shared, matching the source. -/
def deepCloneN : Value → Nat → Value × Nat
  | .none, c => (.none, c)
  | .int n, c => (.int n, c)
  | .float q, c => (.float q, c)
  | .bool b, c => (.bool b, c)
  | .str s, c => (.str s, c)
  | .vec _ elems, c =>
      let p := deepCloneListN elems c
      (.vec p.2 p.1, p.2 + 1)
  | .dataObject _ dn fields, c =>
      let p := deepCloneListN fields c
      (.dataObject p.2 dn p.1, p.2 + 1)
  | .token t, c => (.token t, c)
  | .code instrs, c => (.code instrs, c)

/-- Element-wise deep clone of a container body, threading the counter. -/
def deepCloneListN : List Value → Nat → List Value × Nat
  | [], c => ([], c)
  | v :: rest, c =>
      let p := deepCloneN v c
      let q := deepCloneListN rest p.2
      (p.1 :: q.1, q.2)

end

mutual

/-- The `Rc` identities of every `Vec` or `DataObject` cell reachable from a
value, including cells reachable through the operands of a code block.  Two
runtime values share mutable container state exactly when these id sets
intersect. -/
def containerIds : Value → List Nat
  | .vec id elems => id :: containerIdsList elems
  | .dataObject id _ fields => id :: containerIdsList fields
  | .code c => containerIdsCode c
  | _ => []

/-- Ids reachable from a list of values. -/
def containerIdsList : List Value → List Nat
  | [] => []
  | v :: rest => containerIds v ++ containerIdsList rest

/-- Ids reachable from a bytecode block. -/
def containerIdsCode : List Instruction → List Nat
  | [] => []
  | .mk _ op :: rest => containerIdsOp op ++ containerIdsCode rest

/-- Ids reachable from the operand of an op. -/
def containerIdsOp : Op → List Nat
  | .defVariable v => containerIds v
  | .defConstant v => containerIds v
  | .execute v => containerIds v
  | .pushConstantValue v => containerIds v
  | .markLoopExit v => containerIds v
  | .markCatch v => containerIds v
  | .jump v => containerIds v
  | .jumpIfZero v => containerIds v
  | .jumpIfNotZero v => containerIds v
  | .jumpTarget v => containerIds v
  | _ => []

end

mutual

/-- `true` when no `Code` block occurs inside the value. -/
def noCode : Value → Bool
  | .vec _ elems => noCodeList elems
  | .dataObject _ _ fields => noCodeList fields
  | .code _ => false
  | _ => true

/-- `noCode` over a list of values. -/
def noCodeList : List Value → Bool
  | [] => true
  | v :: rest => noCode v && noCodeList rest

end

mutual

/-- Structural equality of values in the sense of spec §4.5: same variant,
equal payloads, containers compared recursively by contents, container
identities ignored.  This is the corrected equality the spec prescribes, used
to state what "deep_clone(v) is structurally equal to v" means. -/
def structEq : Value → Value → Bool
  | .none, .none => true
  | .int a, .int b => a == b
  | .float a, .float b => a == b
  | .bool a, .bool b => a == b
  | .str a, .str b => a == b
  | .vec _ xs, .vec _ ys => structListEq xs ys
  | .dataObject _ n xs, .dataObject _ m ys => n == m && structListEq xs ys
  | .token t, .token u => t == u
  | .code c, .code d => instrListEq c d
  | _, _ => false
  termination_by structural a _ => a

/-- `structEq` over lists, length-sensitive. -/
def structListEq : List Value → List Value → Bool
  | [], [] => true
  | x :: xs, y :: ys => structEq x y && structListEq xs ys
  | _, _ => false
  termination_by structural l _ => l

/-- Structural equality of instruction lists. -/
def instrListEq : List Instruction → List Instruction → Bool
  | [], [] => true
  | .mk l o :: xs, .mk m p :: ys => l == m && opEq o p && instrListEq xs ys
  | _, _ => false
  termination_by structural l _ => l

/-- Structural equality of ops. -/
def opEq : Op → Op → Bool
  | .defVariable a, .defVariable b => structEq a b
  | .defConstant a, .defConstant b => structEq a b
  | .readVariable, .readVariable => true
  | .writeVariable, .writeVariable => true
  | .execute a, .execute b => structEq a b
  | .pushConstantValue a, .pushConstantValue b => structEq a b
  | .markLoopExit a, .markLoopExit b => structEq a b
  | .unmarkLoopExit, .unmarkLoopExit => true
  | .markCatch a, .markCatch b => structEq a b
  | .unmarkCatch, .unmarkCatch => true
  | .markContext, .markContext => true
  | .releaseContext, .releaseContext => true
  | .jump a, .jump b => structEq a b
  | .jumpIfZero a, .jumpIfZero b => structEq a b
  | .jumpIfNotZero a, .jumpIfNotZero b => structEq a b
  | .jumpLoopStart, .jumpLoopStart => true
  | .jumpLoopExit, .jumpLoopExit => true
  | .jumpTarget a, .jumpTarget b => structEq a b
  | _, _ => false
  termination_by structural o _ => o

end

/-! ### The value stack and its typed pops -/

/-- `ValueStack` (interpreter/mod.rs, line 70): a `Vec<Value>`.  Index 0 is
the bottom of the stack; `push` appends at the end, so the top of the stack
is the last element. -/
abbrev ValueStack := List Value

/-- `InterpreterStack::push` for `SorthInterpreter` (sorth_interpreter.rs,
lines 223-231), without the max-depth statistic, which no claim reads. -/
def stackPush (st : ValueStack) (v : Value) : ValueStack := st ++ [v]

/-- `Vec::pop`: removes and returns the last element, if any. -/
def vecPop (st : ValueStack) : Option (Value × ValueStack) :=
  match st.getLast? with
  | some v => some (v, st.dropLast)
  | none => none

/-- `SorthInterpreter::pop` (sorth_interpreter.rs, lines 233-243): `Vec::pop`
with a "Stack underflow." script error on the empty stack. -/
def pop (st : ValueStack) : ValueStack × Res Value :=
  match vecPop st with
  | some (v, st') => (st', .ok v)
  | none => (st, .err "Stack underflow.")

/-- `SorthInterpreter::pop_as_int` (sorth_interpreter.rs, lines 245-255):
pop, then require `is_numeric`, then coerce with `get_int_val`.  Note the
popped value stays popped even when the numeric check fails. -/
def popAsInt (st : ValueStack) : ValueStack × Res Int :=
  match pop st with
  | (st', .ok v) =>
      if !v.isNumeric then (st', .err "Expected numeric value.")
      else (st', .ok v.getIntVal)
  | (st', .err m) => (st', .err m)
  | (st', .panic m) => (st', .panic m)

/-- `SorthInterpreter::pop_as_float` (sorth_interpreter.rs, lines 262-272). -/
def popAsFloat (st : ValueStack) : ValueStack × Res ℚ :=
  match pop st with
  | (st', .ok v) =>
      if !v.isNumeric then (st', .err "Expected numeric value.")
      else (st', .ok v.getFloatVal)
  | (st', .err m) => (st', .err m)
  | (st', .panic m) => (st', .panic m)

/-- `SorthInterpreter::pop_as_bool` (sorth_interpreter.rs, lines 274-284):
the guard is `is_numeric`, the coercion `get_bool_val`. -/
def popAsBool (st : ValueStack) : ValueStack × Res Bool :=
  match pop st with
  | (st', .ok v) =>
      if !v.isNumeric then (st', .err "Expected boolean value.")
      else (st', .ok v.getBoolVal)
  | (st', .err m) => (st', .err m)
  | (st', .panic m) => (st', .panic m)

/-- `SorthInterpreter::pop_as_string` (sorth_interpreter.rs, lines 286-296). -/
def popAsString (st : ValueStack) : ValueStack × Res String :=
  match pop st with
  | (st', .ok v) =>
      if !v.isStringable then (st', .err "Expected a string value.")
      else (st', .ok v.getStringVal)
  | (st', .err m) => (st', .err m)
  | (st', .panic m) => (st', .panic m)

/-- `Vec::insert` at `index`, shifting later elements right; panics when
`index > len`. -/
def vecInsertAt (st : ValueStack) (index : Nat) (v : Value) : ValueStack :=
  st.take index ++ v :: st.drop index

/-- `SorthInterpreter::pick` (sorth_interpreter.rs, lines 346-350):
`self.stack.remove(index)` — `Vec::remove` takes the element at position
`index` counted from the front of the vector, which is the bottom of the
stack, and panics when the index is out of bounds. -/
def pick (st : ValueStack) (index : Nat) : ValueStack × Res Value :=
  match st.get? index with
  | some v => (st.eraseIdx index, .ok v)
  | none => (st, .panic "Vec::remove index out of bounds")

/-- `SorthInterpreter::push_to` (sorth_interpreter.rs, lines 352-364): pop
the top, then `Vec::insert(index, value)` — inserting at position `index`
counted from the front of the vector (the bottom of the stack). -/
def pushTo (st : ValueStack) (index : Nat) : ValueStack × Res Unit :=
  match vecPop st with
  | some (v, st') =>
      if index ≤ st'.length then (vecInsertAt st' index v, .ok ())
      else (st', .panic "Vec::insert index out of bounds")
  | none => (st, .err "Stack underflow.")

/-- `word_pick` (stack_words.rs, lines 69-85): pop the index, range-check it
against the remaining depth, `pick` and push the result. -/
def wordPick (st : ValueStack) : ValueStack × Res Unit :=
  match popAsInt st with
  | (st1, .ok index) =>
      let count : Int := st1.length
      if index < 0 || index ≥ count then
        (st1, .err ("Index " ++ toString index ++ " out of range of stack size "
                      ++ toString count ++ "."))
      else
        match pick st1 index.toNat with
        | (st2, .ok value) => (stackPush st2 value, .ok ())
        | (st2, .err m) => (st2, .err m)
        | (st2, .panic m) => (st2, .panic m)
  | (st1, .err m) => (st1, .err m)
  | (st1, .panic m) => (st1, .panic m)

/-- `word_push_to` (stack_words.rs, lines 87-102): pop the index,
range-check it against the remaining depth, then `push_to`. -/
def wordPushTo (st : ValueStack) : ValueStack × Res Unit :=
  match popAsInt st with
  | (st1, .ok index) =>
      let len : Int := st1.length
      if index < 0 || index ≥ len then
        (st1, .err ("Index " ++ toString index ++ " out of range of stack length "
                      ++ toString len ++ "."))
      else
        match pushTo st1 index.toNat with
        | (st2, .ok _) => (st2, .ok ())
        | (st2, .err m) => (st2, .err m)
        | (st2, .panic m) => (st2, .panic m)
  | (st1, .err m) => (st1, .err m)
  | (st1, .panic m) => (st1, .panic m)

/-- `string_or_numeric_op` (math_logic_and_bit_words.rs, lines 8-43): pop `b`
then `a`; if either is a `String` *value* apply the string op, else if either
is a `Float` the float op, else if either is an `Int` the int op, else report
"Value incompatible with numeric op.".  The source passes closures that push
their result; they are modelled as functions returning the value pushed. -/
def stringOrNumericOp (st : ValueStack)
    (fop : ℚ → ℚ → Value) (iop : Int → Int → Value) (sop : String → String → Value) :
    ValueStack × Res Unit :=
  match pop st with
  | (st1, .ok b) =>
      match pop st1 with
      | (st2, .ok a) =>
          if Value.eitherIsString a b then
            (stackPush st2 (sop a.getStringVal b.getStringVal), .ok ())
          else if Value.eitherIsFloat a b then
            (stackPush st2 (fop a.getFloatVal b.getFloatVal), .ok ())
          else if Value.eitherIsInt a b then
            (stackPush st2 (iop a.getIntVal b.getIntVal), .ok ())
          else
            (st2, .err "Value incompatible with numeric op.")
      | (st2, .err m) => (st2, .err m)
      | (st2, .panic m) => (st2, .panic m)
  | (st1, .err m) => (st1, .err m)
  | (st1, .panic m) => (st1, .panic m)

/-- `word_add` (math_logic_and_bit_words.rs, lines 108-114): `+` through
`string_or_numeric_op` with addition and string concatenation.  The `i64`
addition is modelled exactly (no theorem exercises the overflow panic of a
debug build) and the `f64` addition by the exact `ℚ` model. -/
def wordAdd (st : ValueStack) : ValueStack × Res Unit :=
  stringOrNumericOp st (fun a b => .float (a + b)) (fun a b => .int (a + b))
    (fun a b => .str (a ++ b))

/-! ### Contextual containers and the interpreter state -/

/-- A contextual container (contextual_list.rs, dictionary.rs): a stack of
sub-containers stored bottom-first like the Rust `Vec`.  `mark_context`
pushes an empty top; `release_context` pops it and panics when it would
release the last one.  Absolute indexing concatenates the sub-lists, which
matches the `start_index` bookkeeping of `ContextualList` (each sub-list
starts where the previous one ends). -/
abbrev Contextual (α : Type) := List (List α)

/-- `ContextualList::len`: total length across every sub-context. -/
def ctxLen (c : Contextual α) : Nat := (c.map List.length).sum

/-- `ContextualList::insert`: push into the top sub-list, returning the new
item's absolute index (`self.len() - 1` after the push, i.e. the old total
length).  The source panics when no context exists; every container of this
model always holds at least one. -/
def ctxInsert (c : Contextual α) (a : α) : Contextual α × Nat :=
  (c.dropLast ++ [(c.getLast?.getD []) ++ [a]], ctxLen c)

/-- Absolute indexing into a contextual list (`Index for ContextualList`). -/
def ctxGet (c : Contextual α) (i : Nat) : Option α := c.flatten.get? i

/-- Absolute-index write into a contextual list (`IndexMut`): find the
sub-context containing the index and update in place. -/
def ctxSet : Contextual α → Nat → α → Contextual α
  | [], _, _ => []
  | s :: rest, i, a =>
      if i < s.length then s.set i a :: rest
      else s :: ctxSet rest (i - s.length) a

/-- `mark_context` on a contextual container: push an empty top. -/
def ctxMark (c : Contextual α) : Contextual α := c ++ [[]]

/-- `release_context`: pop the top sub-container; the source panics when the
stack is empty or would become empty (`none` here). -/
def ctxRelease (c : Contextual α) : Option (Contextual α) :=
  if c.length ≤ 1 then none else some c.dropLast

/-- `WordInfo` (dictionary.rs), restricted to the fields the execution loop
reads: the name and the handler index.  The runtime/type/visibility flags,
description and signature are carried by the source but read by none of the
claims. -/
structure WordInfo where
  name : String
  handlerIndex : Nat

/-- The word handlers that `execute_code` itself installs: the closure
created by `define_variable` (pushes the variable's index) and the closure
created by `define_constant` (pushes a deep clone of the captured constant);
see sorth_interpreter.rs, lines 385-389 and 414-418.  Externally registered
native and scripted words are outside this bytecode-level model — their
registration is external to the core (spec §2). -/
inductive Handler where
  | pushIndex (index : Nat)
  | pushConstant (constant : Value)

/-- `WordHandlerInfo` (interpreter/mod.rs): handler name plus the handler.
The defining location it also carries is read by no claim. -/
structure WordHandlerInfo where
  name : String
  handler : Handler

/-- `CallItem`: a call-stack frame of word name and location. -/
structure CallItem where
  name : String
  location : SourceLocation

/-- `Dictionary::insert`: insert into the top sub-dictionary.  The sub-map is
modelled as an entry list with the newest entry first, so lookup by first
match realizes `HashMap` replacement. -/
def dictInsert (d : Contextual (String × WordInfo)) (name : String) (info : WordInfo) :
    Contextual (String × WordInfo) :=
  d.dropLast ++ [(name, info) :: (d.getLast?.getD [])]

/-- `Dictionary::try_get` (dictionary.rs, lines 229-240): search the
sub-dictionaries top-down and return the first hit. -/
def dictTryGet (d : Contextual (String × WordInfo)) (name : String) : Option WordInfo :=
  (d.reverse.flatten.find? (fun e => e.1 == name)).map Prod.snd

/-- The `SorthInterpreter` state, restricted to the fields the bytecode loop
touches.  `search_paths`, `max_depth` and the compile-time constructor stack
are omitted (no claim reads them); the data-definition payload is likewise
opaque to every claim.  `nextId` models the `Rc` allocator supplying fresh
container identities to deep clones. -/
structure Interp where
  stack : ValueStack
  currentLocation : Option SourceLocation
  callStack : List CallItem
  dataDefinitions : Contextual Unit
  dictionary : Contextual (String × WordInfo)
  wordHandlers : Contextual WordHandlerInfo
  vars : Contextual Value
  nextId : Nat

/-- `SorthInterpreter::new` (sorth_interpreter.rs, lines 1058-1081): each
contextual container starts with one marked context. -/
def newInterp : Interp :=
  { stack := [], currentLocation := Option.none, callStack := [],
    dataDefinitions := [[]], dictionary := [[]], wordHandlers := [[]],
    vars := [[]], nextId := 0 }

/-- `ContextualData for SorthInterpreter::mark_context` (sorth_interpreter.rs,
lines 193-199): the dictionary, word handlers, data definitions and variables
are marked together. -/
def Interp.markContext (i : Interp) : Interp :=
  { i with dictionary := ctxMark i.dictionary,
           wordHandlers := ctxMark i.wordHandlers,
           dataDefinitions := ctxMark i.dataDefinitions,
           vars := ctxMark i.vars }

/-- `ContextualData for SorthInterpreter::release_context` (lines 201-207):
all four containers released together; `none` models the panic on releasing
a last context. -/
def Interp.releaseContext (i : Interp) : Option Interp :=
  match ctxRelease i.dictionary, ctxRelease i.wordHandlers,
        ctxRelease i.dataDefinitions, ctxRelease i.vars with
  | some d, some w, some dd, some v =>
      some { i with dictionary := d, wordHandlers := w,
                    dataDefinitions := dd, vars := v }
  | _, _, _, _ => none

/-- `SorthInterpreter::add_word` (lines 904-931): insert the handler info
into the handler list, then the word info (carrying the new handler index)
into the dictionary. -/
def Interp.addWord (i : Interp) (name : String) (handler : Handler) : Interp :=
  let p := ctxInsert i.wordHandlers ⟨name, handler⟩
  { i with wordHandlers := p.1,
           dictionary := dictInsert i.dictionary name ⟨name, p.2⟩ }

/-- Push onto the interpreter's value stack. -/
def Interp.push (i : Interp) (v : Value) : Interp :=
  { i with stack := stackPush i.stack v }

/-- `pop` lifted to the interpreter state. -/
def Interp.popV (i : Interp) : Interp × Res Value :=
  let p := pop i.stack
  ({ i with stack := p.1 }, p.2)

/-- `pop_as_int` lifted to the interpreter state. -/
def Interp.popInt (i : Interp) : Interp × Res Int :=
  let p := popAsInt i.stack
  ({ i with stack := p.1 }, p.2)

/-- `pop_as_bool` lifted to the interpreter state. -/
def Interp.popBool (i : Interp) : Interp × Res Bool :=
  let p := popAsBool i.stack
  ({ i with stack := p.1 }, p.2)

/-- Deep clone against the interpreter state: fresh container identities
come from the allocator model. -/
def Interp.deepClone (i : Interp) (v : Value) : Interp × Value :=
  let p := deepCloneN v i.nextId
  ({ i with nextId := p.2 }, p.1)

/-- `call_stack_pop` (sorth_interpreter.rs, lines 1038-1047). -/
def callStackPop (i : Interp) : Interp × Res Unit :=
  if i.callStack.isEmpty then (i, .err "Call stack underflow.")
  else ({ i with callStack := i.callStack.dropLast }, .ok ())

/-! ### The bytecode execution loop -/

/-- A Rust `i64 as usize` cast: wraps modulo `2 ^ 64`. -/
def intAsUsize (x : Int) : Nat := (x % (2 ^ 64 : Int)).toNat

/-- A `usize` decrement: underflow at 0 is an arithmetic overflow, a panic in
a debug build. -/
def usizeSub1 (x : Nat) : Res Nat :=
  if x = 0 then .panic "usize underflow" else .ok (x - 1)

/-- `define_variable` (sorth_interpreter.rs, lines 372-399): allocate a
variable slot initialized to `Value::default()` (`None`) and install a word
that pushes the slot's index.  The source's error message interpolates the
offending value's display form, which is not modelled. -/
def defineVariable (i : Interp) (value : Value) : Interp × Res Unit :=
  if !value.isStringable then
    (i, .err "Invalid variable name.")
  else
    let name := value.getStringVal
    let p := ctxInsert i.vars Value.none
    (Interp.addWord { i with vars := p.1 } name (.pushIndex p.2), .ok ())

/-- `define_constant` (lines 401-428): pop the constant value and install a
word whose handler pushes a deep clone of it. -/
def defineConstant (i : Interp) (value : Value) : Interp × Res Unit :=
  if !value.isStringable then
    (i, .err "Invalid constant name.")
  else
    let name := value.getStringVal
    match i.popV with
    | (i1, .ok constant) => (i1.addWord name (.pushConstant constant), .ok ())
    | (i1, .err m) => (i1, .err m)
    | (i1, .panic m) => (i1, .panic m)

/-- `read_variable` (lines 430-448): pop the index, range-check it against
the whole variable list, push the slot's value. -/
def readVariable (i : Interp) : Interp × Res Unit :=
  match i.popInt with
  | (i1, .ok index) =>
      if intAsUsize index ≥ ctxLen i1.vars then
        (i1, .err ("Read index " ++ toString index ++ " out of range of variable set."))
      else
        match ctxGet i1.vars (intAsUsize index) with
        | some v => (i1.push v, .ok ())
        | Option.none => (i1, .panic "variable index not found")
  | (i1, .err m) => (i1, .err m)
  | (i1, .panic m) => (i1, .panic m)

/-- `write_variable` (lines 450-464): pop the index, pop the value,
range-check, write the slot. -/
def writeVariable (i : Interp) : Interp × Res Unit :=
  match i.popInt with
  | (i1, .ok index) =>
      match i1.popV with
      | (i2, .ok value) =>
          if intAsUsize index ≥ ctxLen i2.vars then
            (i2, .err ("Write index " ++ toString index ++ " out of range of variable set."))
          else
            ({ i2 with vars := ctxSet i2.vars (intAsUsize index) value }, .ok ())
      | (i2, .err m) => (i2, .err m)
      | (i2, .panic m) => (i2, .panic m)
  | (i1, .err m) => (i1, .err m)
  | (i1, .panic m) => (i1, .panic m)

/-- `execute_word_handler` (lines 953-975): set the current location, push a
call-stack frame, run the handler, pop the frame with a plain `Vec::pop`. -/
def executeWordHandler (i : Interp) (location : Option SourceLocation)
    (whi : WordHandlerInfo) : Interp × Res Unit :=
  let i1 := { i with currentLocation := location }
  let loc := location.getD SourceLocation.new
  let i2 := { i1 with callStack := i1.callStack ++ [CallItem.mk whi.name loc] }
  let p : Interp × Res Unit :=
    match whi.handler with
    | .pushIndex n => (i2.push (.int n), .ok ())
    | .pushConstant v =>
        let q := i2.deepClone v
        (q.1.push q.2, .ok ())
  ({ p.1 with callStack := p.1.callStack.dropLast }, p.2)

/-- `word_handler_info` (lines 938-946). -/
def wordHandlerInfo (i : Interp) (index : Nat) : Option WordHandlerInfo :=
  if index ≥ ctxLen i.wordHandlers then Option.none else ctxGet i.wordHandlers index

/-- `execute_word_index` (lines 1012-1026). -/
def executeWordIndex (i : Interp) (location : Option SourceLocation) (index : Nat) :
    Interp × Res Unit :=
  match wordHandlerInfo i index with
  | some hi => executeWordHandler i location hi
  | Option.none => (i, .err ("Word handler index " ++ toString index ++ " not found."))

/-- `execute_word_named` (lines 996-1010) composed with `execute_word`
(lines 977-994): dictionary lookup, then handler lookup by index. -/
def executeWordNamed (i : Interp) (location : Option SourceLocation) (word : String) :
    Interp × Res Unit :=
  match dictTryGet i.dictionary word with
  | some wi =>
      match wordHandlerInfo i wi.handlerIndex with
      | some hi => executeWordHandler i location hi
      | Option.none =>
          (i, .err ("Handler for word " ++ wi.name ++ ", ("
                      ++ toString wi.handlerIndex ++ ") not found."))
  | Option.none => (i, .err ("Word " ++ word ++ " not found."))

/-- `execute_value` (lines 466-506): dispatch a word by string name, word
token or handler index; other values are not executable.  The error messages
interpolate the offending value's display form, which is not modelled. -/
def executeValue (i : Interp) (value : Value) : Interp × Res Unit :=
  let location := i.currentLocation
  match value with
  | .str name => executeWordNamed i location name
  | .token (.word loc name) => executeWordNamed i (some loc) name
  | .token _ => (i, .err "Token is not executable.")
  | .int index => executeWordIndex i location (intAsUsize index)
  | _ => (i, .err "Value is not executable.")

/-- `push_constant_value` (lines 508-515): push a deep clone of the literal. -/
def pushConstantValue (i : Interp) (value : Value) : Interp × Res Unit :=
  let p := i.deepClone value
  (p.1.push p.2, .ok ())

/-- `absolute_index` (lines 517-535): `(pc as i64 + relative) as usize`. -/
def absoluteIndex (pc : Nat) (relativeIndex : Value) : Res Nat :=
  if relativeIndex.isNumeric then
    .ok (intAsUsize ((pc : Int) + relativeIndex.getIntVal))
  else
    .err "Invalid loop exit index."

/-- The local state of one `execute_code` activation (lines 656-893):
program counter, count of locally marked contexts, the call-stack-pushed
flag, loop frames and catch frames (the frame vectors grow at the end, like
the Rust `Vec`s). -/
structure LoopState where
  interp : Interp
  pc : Nat
  contexts : Nat
  callStackPushed : Bool
  loopLocations : List (Nat × Nat)
  catchLocations : List Nat

/-- `jump_if_match` (lines 537-556): pop the test value first (the stack
mutation persists even on a later error), then branch when it matches. -/
def jumpIfMatch (st : LoopState) (relativeIndex : Value) (testValue : Bool) :
    LoopState × Res Unit :=
  match st.interp.popBool with
  | (i1, .ok found) =>
      let st1 := { st with interp := i1 }
      match absoluteIndex st1.pc relativeIndex with
      | .ok a =>
          if found == testValue then
            match usizeSub1 a with
            | .ok pcm1 => ({ st1 with pc := pcm1 }, .ok ())
            | .err m => (st1, .err m)
            | .panic m => (st1, .panic m)
          else (st1, .ok ())
      | .err m => (st1, .err m)
      | .panic m => (st1, .panic m)
  | (i1, .err m) => ({ st with interp := i1 }, .err m)
  | (i1, .panic m) => ({ st with interp := i1 }, .panic m)

/-- The instruction dispatch of `execute_code` (lines 705-858).  Note the
`ReleaseContext` arm (lines 784-795): faithfully to the source, it only
checks and decrements the local context counter — it does not invoke
`release_context` on the interpreter. -/
def runOp (st : LoopState) : Op → LoopState × Res Unit
  | .defVariable value =>
      let p := defineVariable st.interp value
      ({ st with interp := p.1 }, p.2)
  | .defConstant value =>
      let p := defineConstant st.interp value
      ({ st with interp := p.1 }, p.2)
  | .readVariable =>
      let p := readVariable st.interp
      ({ st with interp := p.1 }, p.2)
  | .writeVariable =>
      let p := writeVariable st.interp
      ({ st with interp := p.1 }, p.2)
  | .execute value =>
      let p := executeValue st.interp value
      ({ st with interp := p.1 }, p.2)
  | .pushConstantValue value =>
      let p := pushConstantValue st.interp value
      ({ st with interp := p.1 }, p.2)
  | .markLoopExit value =>
      match absoluteIndex st.pc value with
      | .ok a => ({ st with loopLocations := st.loopLocations ++ [(st.pc + 1, a)] }, .ok ())
      | .err m => (st, .err m)
      | .panic m => (st, .panic m)
  | .unmarkLoopExit =>
      if st.loopLocations.isEmpty then (st, .err "Unbalanced loop exit marker.")
      else ({ st with loopLocations := st.loopLocations.dropLast }, .ok ())
  | .markCatch value =>
      match absoluteIndex st.pc value with
      | .ok a => ({ st with catchLocations := st.catchLocations ++ [a] }, .ok ())
      | .err m => (st, .err m)
      | .panic m => (st, .panic m)
  | .unmarkCatch =>
      if st.catchLocations.isEmpty then (st, .err "Unbalanced catch exit marker.")
      else ({ st with catchLocations := st.catchLocations.dropLast }, .ok ())
  | .markContext =>
      ({ st with interp := st.interp.markContext, contexts := st.contexts + 1 }, .ok ())
  | .releaseContext =>
      if st.contexts = 0 then (st, .err "Unbalanced context release detected.")
      else ({ st with contexts := st.contexts - 1 }, .ok ())
  | .jump value =>
      match absoluteIndex st.pc value with
      | .ok a =>
          match usizeSub1 a with
          | .ok pcm1 => ({ st with pc := pcm1 }, .ok ())
          | .err m => (st, .err m)
          | .panic m => (st, .panic m)
      | .err m => (st, .err m)
      | .panic m => (st, .panic m)
  | .jumpIfZero value => jumpIfMatch st value false
  | .jumpIfNotZero value => jumpIfMatch st value true
  | .jumpLoopStart =>
      match st.loopLocations.getLast? with
      | some frame =>
          match usizeSub1 frame.1 with
          | .ok pcm1 => ({ st with pc := pcm1 }, .ok ())
          | .err m => (st, .err m)
          | .panic m => (st, .panic m)
      | Option.none => (st, .err "JumpLoopStart outside of loop.")
  | .jumpLoopExit =>
      match st.loopLocations.getLast? with
      | some frame =>
          match usizeSub1 frame.2 with
          | .ok pcm1 => ({ st with pc := pcm1 }, .ok ())
          | .err m => (st, .err m)
          | .panic m => (st, .panic m)
      | Option.none => (st, .err "JumpLoopExit outside of loop.")
  | .jumpTarget _ => (st, .ok ())

/-- `release_context` repeated, as in the loop of `cleanup_contexts` (lines
662-677). -/
def releaseContextTimes : Interp → Nat → Interp × Res Unit
  | i, 0 => (i, .ok ())
  | i, n + 1 =>
      match i.releaseContext with
      | some i' => releaseContextTimes i' n
      | Option.none => (i, .panic "Releasing last context!")

/-- `cleanup_contexts` (lines 662-677): release the locally marked contexts;
with `report_error` set, report "Unbalanced context handling detected." when
any were left over. -/
def cleanupContexts (i : Interp) (contexts : Nat) (reportError : Bool) : Interp × Res Unit :=
  match releaseContextTimes i contexts with
  | (i', .ok _) =>
      if reportError && contexts > 0 then (i', .err "Unbalanced context handling detected.")
      else (i', .ok ())
  | (i', .err m) => (i', .err m)
  | (i', .panic m) => (i', .panic m)

/-- The outcome of one loop iteration: `next` continues the loop, `exit`
models an early `return` from `execute_code`. -/
inductive StepOut where
  | next (st : LoopState)
  | exit (st : LoopState) (r : Res Unit)

/-- The location bookkeeping at the head of each loop iteration (lines
697-702): when the instruction carries a location, set the current location,
push a call-stack frame, and record that the push happened. -/
def applyInstrLocation (name : String) (st : LoopState) (instr : Instruction) : LoopState :=
  match instr.location with
  | some loc =>
      { st with
          interp := { st.interp with
                        currentLocation := some loc,
                        callStack := st.interp.callStack ++ [CallItem.mk name loc] },
          callStackPushed := true }
  | Option.none => st

/-- One iteration of the `execute_code` loop (lines 691-887): fetch the
instruction, record its location on the call stack if present, dispatch, and
then either consume the error through the newest catch frame (pop the frame,
set `pc = handler - 1`, push the stringified error; the loop continues), or
return the error after popping the call-stack entry and releasing the marked
contexts, or on success pop the call-stack entry; finally `pc` increments. -/
def execStep (name : String) (code : ByteCode) (st : LoopState) : StepOut :=
  match code.get? st.pc with
  | Option.none => .exit st (.panic "instruction fetch out of bounds")
  | some instr =>
      let st1 := applyInstrLocation name st instr
      let p := runOp st1 instr.op
      let st2 := p.1
      match p.2 with
      | .ok _ =>
          if st2.callStackPushed then
            match callStackPop st2.interp with
            | (i', .ok _) =>
                .next { st2 with interp := i', callStackPushed := false, pc := st2.pc + 1 }
            | (i', .err m) => .exit { st2 with interp := i' } (.err m)
            | (i', .panic m) => .exit { st2 with interp := i' } (.panic m)
          else
            .next { st2 with pc := st2.pc + 1 }
      | .err e =>
          match st2.catchLocations.getLast? with
          | some catchIndex =>
              let st3 := { st2 with catchLocations := st2.catchLocations.dropLast }
              match usizeSub1 catchIndex with
              | .ok pcm1 =>
                  .next { st3 with pc := pcm1 + 1, interp := st3.interp.push (.str e) }
              | .err m => .exit st3 (.err m)
              | .panic m => .exit st3 (.panic m)
          | Option.none =>
              let q :=
                if st2.callStackPushed then callStackPop st2.interp
                else (st2.interp, .ok ())
              match q with
              | (i', .ok _) =>
                  let r := cleanupContexts i' st2.contexts false
                  match r.2 with
                  | .ok _ => .exit { st2 with interp := r.1 } (.err e)
                  | .err m => .exit { st2 with interp := r.1 } (.err m)
                  | .panic m => .exit { st2 with interp := r.1 } (.panic m)
              | (i', .err m) => .exit { st2 with interp := i' } (.err m)
              | (i', .panic m) => .exit { st2 with interp := i' } (.panic m)
      | .panic m => .exit st2 (.panic m)

/-- The `while pc < code.len()` loop, fuel-indexed; `none` marks fuel
exhaustion and never arises at the fuel the theorems supply. -/
def execLoop (name : String) (code : ByteCode) : Nat → LoopState → Option (LoopState × Res Unit)
  | 0, _ => Option.none
  | fuel + 1, st =>
      if st.pc < code.length then
        match execStep name code st with
        | .next st' => execLoop name code fuel st'
        | .exit st' r => some (st', r)
      else
        some (st, .ok ())

/-- `execute_code` (sorth_interpreter.rs, lines 656-893): run the loop from a
fresh local state, then check the context balance (`cleanup_contexts` with
error reporting). -/
def executeCode (name : String) (code : ByteCode) (fuel : Nat) (i : Interp) :
    Option (Interp × Res Unit) :=
  match execLoop name code fuel
          { interp := i, pc := 0, contexts := 0, callStackPushed := false,
            loopLocations := [], catchLocations := [] } with
  | Option.none => Option.none
  | some (st, .ok _) => some (cleanupContexts st.interp st.contexts true)
  | some (st, .err m) => some (st.interp, .err m)
  | some (st, .panic m) => some (st.interp, .panic m)

/-! ### Byte buffers and the FFI argument-buffer prologue -/

/-- `ByteBuffer` (byte_buffer.rs): a byte vector plus a cursor. -/
structure ByteBuffer where
  buffer : List Nat
  currentPosition : Nat
deriving DecidableEq, Repr

/-- `Vec::resize`: truncate, or pad at the end with the fill byte. -/
def listResize (l : List Nat) (n : Nat) (fill : Nat) : List Nat :=
  l.take n ++ List.replicate (n - l.length) fill

/-- `ByteBuffer::new` (byte_buffer.rs, lines 420-433): a zero-filled buffer
with the cursor at 0. -/
def ByteBuffer.new (newLen : Nat) : ByteBuffer := ⟨List.replicate newLen 0, 0⟩

/-- `ByteBuffer::resize` (byte_buffer.rs, lines 131-139): resize the byte
vector, then pull the cursor back to `new_size - 1` whenever it sits at or
past the new size, leaving it alone otherwise.  With `new_size == 0` the
cursor update computes `0usize - 1`, an arithmetic underflow: a debug build
panics and a release build would wrap the cursor to `usize::MAX`; the
operation never completes with a valid cursor, modelled as `none`. -/
def ByteBuffer.resize (b : ByteBuffer) (newSize : Nat) : Option ByteBuffer :=
  let buffer := listResize b.buffer newSize 0
  if b.currentPosition ≥ newSize then
    if newSize = 0 then Option.none
    else some ⟨buffer, newSize - 1⟩
  else
    some ⟨buffer, b.currentPosition⟩

/-- The argument-marshalling prologue of `FfiWord::handle_call` together
with `get_param_value_ptrs` (ffi_words.rs, lines 705-816), reduced to the
buffer sizing it performs: two fresh zero-length byte buffers are allocated
and resized to the summed (primary, overflow) byte counts reported for the
declared parameters.  With an empty parameter list both sums are 0. -/
def ffiArgBuffers (paramSizes : List (Nat × Nat)) : Option (ByteBuffer × ByteBuffer) :=
  let baseSize := (paramSizes.map Prod.fst).sum
  let extraSize := (paramSizes.map Prod.snd).sum
  match (ByteBuffer.new 0).resize baseSize, (ByteBuffer.new 0).resize extraSize with
  | some b, some e => some (b, e)
  | _, _ => Option.none

/-! ### The source buffer and the tokenizer -/

/-- `SourceBuffer` (source_buffer.rs): the remaining characters plus the
current location; the location always points at the next unread character. -/
structure SourceBuffer where
  chars : List Char
  location : SourceLocation

/-- `increment_location` (source_buffer.rs, lines 143-154): a newline bumps
the line and resets the column to 1; everything else bumps the column. -/
def incrementLocation (loc : SourceLocation) (next : Char) : SourceLocation :=
  if next = '\n' then ⟨loc.path, loc.line + 1, 1⟩
  else ⟨loc.path, loc.line, loc.column + 1⟩

/-- `SourceBuffer::new`: start of the source at line 1, column 1. -/
def SourceBuffer.new (path : String) (source : String) : SourceBuffer :=
  ⟨source.toList, ⟨path, 1, 1⟩⟩

/-- `SourceBuffer::peek_next`. -/
def SourceBuffer.peekNext (b : SourceBuffer) : Option Char := b.chars.head?

/-- `SourceBuffer::next`: consume one character, advancing the location. -/
def SourceBuffer.next : SourceBuffer → Option Char × SourceBuffer
  | ⟨[], loc⟩ => (Option.none, ⟨[], loc⟩)
  | ⟨c :: rest, loc⟩ => (some c, ⟨rest, incrementLocation loc c⟩)

/-- `is_whitespace` (tokenizing.rs, lines 255-258). -/
def isWhitespaceChar (c : Char) : Bool := c = ' ' || c = '\t' || c = '\r' || c = '\n'

/-- The loop of `skip_whitespace` (tokenizing.rs, lines 261-272), recursing
on the remaining characters. -/
def skipWhitespaceChars : List Char → SourceLocation → SourceBuffer
  | [], loc => ⟨[], loc⟩
  | c :: rest, loc =>
      if isWhitespaceChar c then skipWhitespaceChars rest (incrementLocation loc c)
      else ⟨c :: rest, loc⟩

/-- `skip_whitespace` (tokenizing.rs, lines 261-272). -/
def skipWhitespace (b : SourceBuffer) : SourceBuffer :=
  skipWhitespaceChars b.chars b.location

/-- `process_literal` (tokenizing.rs, lines 275-306): decode one escape
sequence.  The function first consumes what it asserts to be a backslash,
then dispatches on the escape character.  Faithfully to the source, the `0`
arm builds an *empty* string and calls `str::parse::<char>` on it, which
always fails: `\0` reports "Failed to parse numeric literal from ''."
instead of decoding to a NUL character.  Every other character decodes to
itself. -/
def processLiteral (_location : SourceLocation) (b : SourceBuffer) :
    SourceBuffer × Res Char :=
  match b.next with
  | (some c, b1) =>
      if c ≠ '\\' then (b1, .panic "assertion failed: expected a backslash")
      else
        match b1.next with
        | (some esc, b2) =>
            if esc = 'n' then (b2, .ok '\n')
            else if esc = 'r' then (b2, .ok '\r')
            else if esc = 't' then (b2, .ok '\t')
            else if esc = '0' then (b2, .err "Failed to parse numeric literal from ''.")
            else (b2, .ok esc)
        | (Option.none, b2) => (b2, .err "Unexpected end of file in string literal.")
  | (Option.none, b1) => (b1, .panic "unwrap on an exhausted buffer")

/-- `skip_whitespace_until_column` (tokenizing.rs, lines 312-331): consume
whitespace while the column stays below the recorded indent column; hitting
the end of file afterwards is an error. -/
def skipWsUntilColChars : List Char → SourceLocation → Nat → SourceBuffer × Res Unit
  | [], loc, _ => (⟨[], loc⟩, .err "Unexpected end of file in string literal.")
  | c :: rest, loc, targetColumn =>
      if isWhitespaceChar c && loc.column < targetColumn then
        skipWsUntilColChars rest (incrementLocation loc c) targetColumn
      else (⟨c :: rest, loc⟩, .ok ())

/-- Entry point of `skip_whitespace_until_column`. -/
def skipWhitespaceUntilColumn (b : SourceBuffer) (targetColumn : Nat) :
    SourceBuffer × Res Unit :=
  skipWsUntilColChars b.chars b.location targetColumn

/-- The body loop of `process_multi_line_string` (tokenizing.rs, lines
349-398), fuel-indexed.  Note: the loop head consumes each character with
`next()`, so in the `'\\'` arm the backslash is already gone when
`process_literal` runs and its leading assertion reads the escape character
itself; faithfully modelled (no claim exercises multi-line escapes). -/
def processMultiLineLoop (location : SourceLocation) (targetColumn : Nat) :
    Nat → SourceBuffer → String → SourceBuffer × Res String
  | 0, b, _ => (b, .panic "fuel exhausted")
  | fuel + 1, b, text =>
      match b.next with
      | (Option.none, b1) => (b1, .ok text)
      | (some c, b1) =>
          if c = '*' then
            match b1.peekNext with
            | some q =>
                if q = '"' then (b1.next.2, .ok text)
                else processMultiLineLoop location targetColumn fuel b1 (text.push '*')
            | Option.none => (b1, .err "Unexpected end of file in string literal.")
          else if c = '\\' then
            match processLiteral location b1 with
            | (b2, .ok ch) => processMultiLineLoop location targetColumn fuel b2 (text.push ch)
            | (b2, .err m) => (b2, .err m)
            | (b2, .panic m) => (b2, .panic m)
          else if c = '\n' then
            let text1 := text.push '\n'
            let startLine := b1.location.line
            match skipWhitespaceUntilColumn b1 targetColumn with
            | (b2, .ok _) =>
                let currentLine := b2.location.line
                let text2 :=
                  if currentLine > startLine then
                    text1 ++ String.mk (List.replicate (currentLine - startLine) '\n')
                  else text1
                processMultiLineLoop location targetColumn fuel b2 text2
            | (b2, .err m) => (b2, .err m)
            | (b2, .panic m) => (b2, .panic m)
          else
            processMultiLineLoop location targetColumn fuel b1 (text.push c)

/-- `process_multi_line_string` (tokenizing.rs, lines 309-401): consume the
`*`, skip whitespace, record the indent column, then run the body loop. -/
def processMultiLineString (location : SourceLocation) (b : SourceBuffer) (fuel : Nat) :
    SourceBuffer × Res String :=
  match b.next with
  | (some c, b1) =>
      if c ≠ '*' then (b1, .panic "assertion failed: expected an asterisk")
      else
        let b2 := skipWhitespace b1
        processMultiLineLoop location b2.location.column fuel b2 ""
  | (Option.none, b1) => (b1, .panic "unwrap on an exhausted buffer")

/-- The single-line loop of `process_string` (tokenizing.rs, lines 418-429):
peek; stop at the closing quote; a raw newline is an error; a backslash
defers to `process_literal`; anything else is consumed and appended. -/
def processStringLoop (location : SourceLocation) :
    Nat → SourceBuffer → String → SourceBuffer × Res String
  | 0, b, _ => (b, .panic "fuel exhausted")
  | fuel + 1, b, text =>
      match b.peekNext with
      | some next =>
          if next = '"' then (b, .ok text)
          else if next = '\n' then (b, .err "Unexpected new line in string literal.")
          else if next = '\\' then
            match processLiteral location b with
            | (b1, .ok ch) => processStringLoop location fuel b1 (text.push ch)
            | (b1, .err m) => (b1, .err m)
            | (b1, .panic m) => (b1, .panic m)
          else processStringLoop location fuel b.next.2 (text.push next)
      | Option.none => (b, .ok text)

/-- `process_string` (tokenizing.rs, lines 404-444): consume the opening
quote, record the location, branch on `*` for the multi-line mode, and in
single-line mode require the closing quote after the loop. -/
def processString (b : SourceBuffer) (fuel : Nat) :
    SourceBuffer × Res (SourceLocation × String) :=
  match b.next with
  | (some c, b1) =>
      if c ≠ '"' then (b1, .panic "assertion failed: expected a quote")
      else
        let location := b1.location
        if b1.peekNext = some '*' then
          match processMultiLineString location b1 fuel with
          | (b2, .ok text) => (b2, .ok (location, text))
          | (b2, .err m) => (b2, .err m)
          | (b2, .panic m) => (b2, .panic m)
        else
          match processStringLoop location fuel b1 "" with
          | (b2, .ok text) =>
              match b2.next with
              | (some q, b3) =>
                  if q = '"' then (b3, .ok (location, text))
                  else (b3, .panic "assertion failed: expected the closing quote")
              | (Option.none, b3) => (b3, .err "Unexpected end of file in string literal.")
          | (b2, .err m) => (b2, .err m)
          | (b2, .panic m) => (b2, .panic m)
  | (Option.none, b1) => (b1, .panic "unwrap on an exhausted buffer")

/-- The loop of `process_until_whitespace` (tokenizing.rs, lines 447-459). -/
def untilWhitespaceChars : List Char → SourceLocation → String → SourceBuffer × String
  | [], loc, text => (⟨[], loc⟩, text)
  | c :: rest, loc, text =>
      if isWhitespaceChar c then (⟨c :: rest, loc⟩, text)
      else untilWhitespaceChars rest (incrementLocation loc c) (text.push c)

/-- `process_until_whitespace`: record the location, then take characters up
to the next whitespace. -/
def processUntilWhitespace (b : SourceBuffer) : SourceBuffer × (SourceLocation × String) :=
  let p := untilWhitespaceChars b.chars b.location ""
  (p.1, (b.location, p.2))

/-- `char::is_digit(16)`. -/
def isHexDigitChar (c : Char) : Bool :=
  c.isDigit || ('a' ≤ c && c ≤ 'f') || ('A' ≤ c && c ≤ 'F')

/-- `is_number` on a lexeme (tokenizing.rs, lines 462-481): non-empty, and
either `0x`/`0b`-prefixed or made solely of hex digits, `.`, `-`, `e`, `E`
and `_`. -/
def isNumberText (text : String) : Bool :=
  match text.toList with
  | [] => false
  | '0' :: 'x' :: _ => true
  | '0' :: 'b' :: _ => true
  | cs => cs.all (fun c =>
      isHexDigitChar c || c = '.' || c = '-' || c = 'e' || c = 'E' || c = '_')

/-- The numeric value of one digit under a radix, if valid. -/
def digitValue (radix : Nat) (c : Char) : Option Nat :=
  let v :=
    if c.isDigit then some (c.toNat - '0'.toNat)
    else if 'a' ≤ c && c ≤ 'z' then some (c.toNat - 'a'.toNat + 10)
    else if 'A' ≤ c && c ≤ 'Z' then some (c.toNat - 'A'.toNat + 10)
    else Option.none
  match v with
  | some d => if d < radix then some d else Option.none
  | Option.none => Option.none

/-- Digit-sequence accumulator for the integer parsers: every character must
be a digit of the radix and the sequence must be non-empty. -/
def parseDigits (radix : Nat) : List Char → Nat → Option Nat
  | [], acc => some acc
  | c :: rest, acc =>
      match digitValue radix c with
      | some d => parseDigits radix rest (acc * radix + d)
      | Option.none => Option.none

/-- `str::parse::<i64>` / `i64::from_str_radix`: an optional sign, a
non-empty digit sequence of the radix, and an `i64` range check (overflow is
a parse error). -/
def parseI64Radix (radix : Nat) (cs : List Char) : Option Int :=
  let p : Int × List Char :=
    match cs with
    | '-' :: rest => (-1, rest)
    | '+' :: rest => (1, rest)
    | _ => (1, cs)
  if p.2.isEmpty then Option.none
  else
    match parseDigits radix p.2 0 with
    | some n =>
        let v : Int := p.1 * n
        if -(2 ^ 63) ≤ v ∧ v < 2 ^ 63 then some v else Option.none
    | Option.none => Option.none

/-- `str::parse::<f64>` on a lexeme, modelled as the exact rational reading
of the decimal notation `[sign] digits [. digits] [e [sign] digits]` (the
IEEE rounding of the parsed value is not modelled; `to_numeric` only reaches
this parser on lexemes containing `.`, and no theorem exercises it). -/
def parseFloatChars (cs : List Char) : Option ℚ :=
  let p : ℚ × List Char :=
    match cs with
    | '-' :: rest => (-1, rest)
    | '+' :: rest => (1, rest)
    | _ => (1, cs)
  let intDigits := p.2.takeWhile Char.isDigit
  let rest1 := p.2.dropWhile Char.isDigit
  let q : List Char × List Char :=
    match rest1 with
    | '.' :: r => (r.takeWhile Char.isDigit, r.dropWhile Char.isDigit)
    | _ => ([], rest1)
  if intDigits.isEmpty && q.1.isEmpty then Option.none
  else
    let mantissa : ℚ :=
      ((parseDigits 10 intDigits 0).getD 0 : ℚ) +
        ((parseDigits 10 q.1 0).getD 0 : ℚ) / ((10 : ℚ) ^ q.1.length)
    match q.2 with
    | [] => some (p.1 * mantissa)
    | 'e' :: es | 'E' :: es =>
        let r : Int × List Char :=
          match es with
          | '-' :: rest => (-1, rest)
          | '+' :: rest => (1, rest)
          | _ => (1, es)
        if r.2.isEmpty then Option.none
        else
          match parseDigits 10 r.2 0 with
          | some e => some (p.1 * mantissa * (10 : ℚ) ^ (r.1 * e))
          | Option.none => Option.none
    | _ => Option.none

/-- `str::replace("_", "")` for a single-character pattern. -/
def stripUnderscores (cs : List Char) : List Char := cs.filter (fun c => c != '_')

/-- `to_numeric` (tokenizing.rs, lines 484-529): `0x`/`0b` prefixes parse as
radix-16/radix-2 integers, a lexeme containing `.` parses as a float, and
anything else as a decimal integer; underscores are stripped before parsing.
`none` models a parse failure, which demotes the lexeme to a word token. -/
def toNumeric (text : String) : Option NumberType :=
  match text.toList with
  | '0' :: 'x' :: rest => (parseI64Radix 16 (stripUnderscores rest)).map NumberType.int
  | '0' :: 'b' :: rest => (parseI64Radix 2 (stripUnderscores rest)).map NumberType.int
  | cs =>
      if cs.contains '.' then
        (parseFloatChars (stripUnderscores cs)).map NumberType.float
      else
        (parseI64Radix 10 (stripUnderscores cs)).map NumberType.int

/-- `TokenList` (tokenizing.rs). -/
abbrev TokenList := List Token

/-- The loop of `tokenize_from_source` (tokenizing.rs, lines 532-581),
fuel-indexed: skip whitespace, read a string or a whitespace-delimited
lexeme, classify the lexeme as a number or word. -/
def tokenizeLoop : Nat → SourceBuffer → TokenList → SourceBuffer × Res TokenList
  | 0, b, _ => (b, .panic "fuel exhausted")
  | fuel + 1, b, tokens =>
      match b.peekNext with
      | Option.none => (b, .ok tokens)
      | some next =>
          if isWhitespaceChar next then tokenizeLoop fuel (skipWhitespace b) tokens
          else if next = '"' then
            match processString b (fuel + 1) with
            | (b1, .ok lt) => tokenizeLoop fuel b1 (tokens ++ [Token.string lt.1 lt.2])
            | (b1, .err m) => (b1, .err m)
            | (b1, .panic m) => (b1, .panic m)
          else
            let p := processUntilWhitespace b
            let tk :=
              if isNumberText p.2.2 then
                match toNumeric p.2.2 with
                | some number => Token.number p.2.1 number
                | Option.none => Token.word p.2.1 p.2.2
              else Token.word p.2.1 p.2.2
            tokenizeLoop fuel p.1 (tokens ++ [tk])

/-- `tokenize_from_source` (tokenizing.rs, lines 532-581).  The fuel bound
`source.length + 1` dominates the loop: every iteration consumes at least
one character. -/
def tokenizeFromSource (path source : String) : Res TokenList :=
  (tokenizeLoop (source.length + 1) (SourceBuffer.new path source) []).2

/-! ### Helper lemmas -/

/-- Popping a stack written as `rest ++ [v]` yields `v` and `rest`. -/
theorem pop_append (rest : ValueStack) (v : Value) : pop (rest ++ [v]) = (rest, .ok v) := by
  simp [pop, vecPop, List.getLast?_concat, List.dropLast_concat]

/-! ### Claim theorems -/

/-- Popping a stack written as `rest ++ [a, b]` yields `b`, leaving
`rest ++ [a]`. -/
theorem pop_append_two (rest : ValueStack) (a b : Value) :
    pop (rest ++ [a, b]) = (rest ++ [a], .ok b) := by
  have h : rest ++ [a, b] = (rest ++ [a]) ++ [b] := by simp
  rw [h, pop_append]

/-- C1: the spec requires that a `ReleaseContext` instruction performs
`release_context` on the dictionary and variable store, so that the scope
depth after `execute_code` returns equals the depth before.  The code
violates this: the `Op::ReleaseContext` arm only decrements the local
counter (sorth_interpreter.rs, lines 784-795) and never calls
`release_context`, while the final `cleanup_contexts` sees a balanced
counter and releases nothing — so the balanced block
`[MarkContext, ReleaseContext]` returns `Ok` with every scope stack one
level deeper than before. -/
theorem executeCode_releaseContext_leaks_scope :
    ∃ i' : Interp,
      executeCode "test"
          [Instruction.mk Option.none Op.markContext,
           Instruction.mk Option.none Op.releaseContext] 3 newInterp
        = some (i', Res.ok ())
      ∧ i'.dictionary.length = newInterp.dictionary.length + 1
      ∧ i'.vars.length = newInterp.vars.length + 1
      ∧ i'.wordHandlers.length = newInterp.wordHandlers.length + 1
      ∧ i'.dataDefinitions.length = newInterp.dataDefinitions.length + 1 :=
  ⟨_, rfl, rfl, rfl, rfl, rfl⟩

/-- C2: the claim states that two `Int` values are equal exactly when their
integers are, and that hash-map equality is symmetric and size-sensitive.
The source violates both: the `Int` (and `Float`) branches of
`PartialEq for Value` compare `self.get_int_val()` with `self.get_int_val()`
(value.rs, lines 73-74), so `Int(1) == Int(2)` is `true`; and
`PartialEq for ValueHash` checks only that the entries of `self` occur in
`other` (value_hash.rs, lines 30-49), so the empty map equals a non-empty
one while the reverse comparison fails. -/
theorem valueEq_compares_self_with_self :
    valueEq (.int 1) (.int 2) = true
    ∧ valueHashEq [] [(.int 0, .int 0)] = true
    ∧ valueHashEq [(.int 0, .int 0)] [] = false :=
  ⟨rfl, rfl, rfl⟩

/-- C5: the registered `pick` word is documented to "pick the value n
locations down in the stack" (counting from the top, with the spec stating
`pick(n)` removes the value `n` below the top), but `pick` is implemented as
`self.stack.remove(index)` on a `Vec` whose top is the *last* element
(sorth_interpreter.rs, lines 346-350), so it removes the value `n` above the
*bottom*.  With the stack `[1, 2, 3]` (3 on top), `0 pick` moves the bottom
value 1 to the top instead of duplicating the top, and `0 push-to` moves the
top value to the bottom instead of leaving the stack unchanged.  The range
check of the words (an out-of-range index errors) does hold. -/
theorem wordPick_indexes_from_the_bottom :
    wordPick [.int 1, .int 2, .int 3, .int 0] = ([.int 2, .int 3, .int 1], .ok ())
    ∧ wordPushTo [.int 1, .int 2, .int 3, .int 0] = ([.int 3, .int 1, .int 2], .ok ())
    ∧ wordPick [.int 1, .int 2, .int 3, .int 5]
        = ([.int 1, .int 2, .int 3], .err "Index 5 out of range of stack size 3.")
    ∧ wordPushTo [.int 1, .int 2, .int 3, .int (-1)]
        = ([.int 1, .int 2, .int 3], .err "Index -1 out of range of stack length 3.") :=
  ⟨rfl, rfl, rfl, rfl⟩

/-- C6 counterexample: the claim says `+` concatenates whenever either
operand is *stringable* and the two are not both strictly numeric.  String
tokens are stringable and not numeric, yet `+` on two string tokens reports
"Value incompatible with numeric op." instead of pushing `"foobar"`: the
branch condition is `either_is_string`, true only for `String` values
(math_logic_and_bit_words.rs, line 16). -/
theorem wordAdd_stringable_tokens_error :
    wordAdd [.token (.string ⟨"t", 1, 1⟩ "foo"), .token (.string ⟨"t", 1, 1⟩ "bar")]
      = ([], .err "Value incompatible with numeric op.") :=
  rfl

/-- C6 amended: `+` pops `b` then `a` and selects its branch by variant: if
either operand is a `String` *value* it pushes the concatenation of the
string forms (`a`'s then `b`'s); otherwise if either is a `Float` it pushes
the float sum; otherwise if either is an `Int` it pushes the `i64` sum (with
`None`/`Bool` coerced through `get_int_val`); operands fitting none of these
branches — e.g. two Bools or two stringable tokens — report "Value
incompatible with numeric op.". -/
theorem wordAdd_amended :
    (∀ (rest : ValueStack) (s t : String),
      wordAdd (rest ++ [.str s, .str t]) = (rest ++ [.str (s ++ t)], .ok ())) ∧
    (∀ (rest : ValueStack) (s : String) (n : Int),
      wordAdd (rest ++ [.str s, .int n]) = (rest ++ [.str (s ++ toString n)], .ok ())) ∧
    (∀ (rest : ValueStack) (a b : ℚ),
      wordAdd (rest ++ [.float a, .float b]) = (rest ++ [.float (a + b)], .ok ())) ∧
    (∀ (rest : ValueStack) (a b : Int),
      wordAdd (rest ++ [.int a, .int b]) = (rest ++ [.int (a + b)], .ok ())) ∧
    (∀ (rest : ValueStack) (b : Bool) (n : Int),
      wordAdd (rest ++ [.bool b, .int n])
        = (rest ++ [.int ((if b then 1 else 0) + n)], .ok ())) ∧
    (∀ (rest : ValueStack) (a b : Bool),
      wordAdd (rest ++ [.bool a, .bool b]) = (rest, .err "Value incompatible with numeric op.")) := by
  refine ⟨?_, ?_, ?_, ?_, ?_, ?_⟩ <;>
    intro rest a b <;>
    simp [wordAdd, stringOrNumericOp, pop_append_two, pop_append, stackPush,
          Value.eitherIsString, Value.eitherIsFloat, Value.eitherIsInt,
          Value.isString, Value.isFloat, Value.isInt,
          Value.getStringVal, Value.getFloatVal, Value.getIntVal]

/-- C9: the typed numeric pops accept `Value::None`: `is_numeric` classifies
`None` as numeric (value.rs, line 303), so with `None` on top `pop_as_int`
returns 0, `pop_as_float` returns 0.0 and `pop_as_bool` returns false; the
error branch of these pops is reached exactly for the non-numeric shapes:
strings, containers (arrays and data objects), code blocks, and non-number
tokens. -/
theorem popNumeric_accepts_none :
    (∀ rest : ValueStack, popAsInt (rest ++ [.none]) = (rest, .ok 0)) ∧
    (∀ rest : ValueStack, popAsFloat (rest ++ [.none]) = (rest, .ok 0)) ∧
    (∀ rest : ValueStack, popAsBool (rest ++ [.none]) = (rest, .ok false)) ∧
    (∀ (v : Value) (rest : ValueStack), v.isNumeric = false →
      popAsInt (rest ++ [v]) = (rest, .err "Expected numeric value.")
      ∧ popAsFloat (rest ++ [v]) = (rest, .err "Expected numeric value.")
      ∧ popAsBool (rest ++ [v]) = (rest, .err "Expected boolean value.")) ∧
    (∀ v : Value, v.isNumeric = false ↔
      (v.isString || v.isVec || v.isDataObject || v.isCode ||
        (match v with
         | .token (.string _ _) => true
         | .token (.word _ _) => true
         | _ => false)) = true) := by
  refine ⟨?_, ?_, ?_, ?_, ?_⟩
  · intro rest; simp [popAsInt, pop_append, Value.isNumeric, Value.getIntVal]
  · intro rest; simp [popAsFloat, pop_append, Value.isNumeric, Value.getFloatVal]
  · intro rest; simp [popAsBool, pop_append, Value.isNumeric, Value.getBoolVal]
  · intro v rest h
    refine ⟨?_, ?_, ?_⟩ <;> simp [popAsInt, popAsFloat, popAsBool, pop_append, h]
  · intro v
    cases v with
    | token t => cases t <;> simp [Value.isNumeric, Value.isString, Value.isVec,
        Value.isDataObject, Value.isCode]
    | _ => simp [Value.isNumeric, Value.isString, Value.isVec,
        Value.isDataObject, Value.isCode]

/-- C9 witness: the general statement applied at `None` on top of `[5]` and
at the non-numeric input `"x"`. -/
theorem popNumeric_accepts_none_witness :
    popAsInt [.int 5, .none] = ([.int 5], .ok 0)
    ∧ popAsInt [.str "x"] = ([], .err "Expected numeric value.") :=
  ⟨popNumeric_accepts_none.1 [.int 5],
   (popNumeric_accepts_none.2.2.2.1 (.str "x") [] rfl).1⟩

/-- C10: `ByteBuffer::resize` moves the cursor to `new_size - 1` whenever
the cursor sits at or past the new size and leaves it alone otherwise
(byte_buffer.rs, lines 131-139); consequently resizing any buffer to size 0
never completes normally, because the cursor update underflows `0usize - 1`
— and the case is reachable from the public interface, since calling an
FFI-bound function with an empty parameter list resizes a fresh zero-length
argument buffer to 0 (ffi_words.rs, lines 705-816). -/
theorem byteBuffer_resize_zero_underflows (b : ByteBuffer) (n : Nat) :
    (0 < n → n ≤ b.currentPosition →
      ByteBuffer.resize b n = some ⟨listResize b.buffer n 0, n - 1⟩) ∧
    (b.currentPosition < n →
      ByteBuffer.resize b n = some ⟨listResize b.buffer n 0, b.currentPosition⟩) ∧
    ByteBuffer.resize b 0 = Option.none ∧
    ffiArgBuffers [] = Option.none := by
  refine ⟨?_, ?_, ?_, rfl⟩
  · intro hn hpos
    simp [ByteBuffer.resize, hpos, Nat.pos_iff_ne_zero.mp hn]
  · intro h
    simp [ByteBuffer.resize, Nat.not_le.mpr h]
  · simp [ByteBuffer.resize]

/-- C7: inside a string literal the escapes `\n`, `\r`, `\t`, `\\` and `\"`
decode to newline, carriage return, tab, backslash and quote, and any other
`\x` decodes to `x` — but, contrary to the claim, `\0` does not decode to
NUL: the source parses an empty buffer as a `char` (tokenizing.rs, lines
286-300), which always fails, so every string literal containing `\0` makes
tokenization report "Failed to parse numeric literal from ''." instead of
producing a String token with a NUL byte. -/
theorem stringEscape_nul_is_broken :
    (∀ (loc pos : SourceLocation) (rest : List Char),
      processLiteral loc ⟨'\\' :: 'n' :: rest, pos⟩
        = (⟨rest, incrementLocation (incrementLocation pos '\\') 'n'⟩, .ok '\n')) ∧
    (∀ (loc pos : SourceLocation) (rest : List Char),
      processLiteral loc ⟨'\\' :: 'r' :: rest, pos⟩
        = (⟨rest, incrementLocation (incrementLocation pos '\\') 'r'⟩, .ok '\r')) ∧
    (∀ (loc pos : SourceLocation) (rest : List Char),
      processLiteral loc ⟨'\\' :: 't' :: rest, pos⟩
        = (⟨rest, incrementLocation (incrementLocation pos '\\') 't'⟩, .ok '\t')) ∧
    (∀ (loc pos : SourceLocation) (rest : List Char),
      processLiteral loc ⟨'\\' :: '\\' :: rest, pos⟩
        = (⟨rest, incrementLocation (incrementLocation pos '\\') '\\'⟩, .ok '\\')) ∧
    (∀ (loc pos : SourceLocation) (rest : List Char),
      processLiteral loc ⟨'\\' :: '"' :: rest, pos⟩
        = (⟨rest, incrementLocation (incrementLocation pos '\\') '"'⟩, .ok '"')) ∧
    (∀ (loc pos : SourceLocation) (rest : List Char) (x : Char),
      x ≠ 'n' → x ≠ 'r' → x ≠ 't' → x ≠ '0' →
      processLiteral loc ⟨'\\' :: x :: rest, pos⟩
        = (⟨rest, incrementLocation (incrementLocation pos '\\') x⟩, .ok x)) ∧
    (∀ (loc pos : SourceLocation) (rest : List Char),
      processLiteral loc ⟨'\\' :: '0' :: rest, pos⟩
        = (⟨rest, incrementLocation (incrementLocation pos '\\') '0'⟩,
           .err "Failed to parse numeric literal from ''.")) ∧
    tokenizeFromSource "t" "\"a\\0b\"" = .err "Failed to parse numeric literal from ''." := by
  refine ⟨?_, ?_, ?_, ?_, ?_, ?_, ?_, rfl⟩
  · intro loc pos rest; rfl
  · intro loc pos rest; rfl
  · intro loc pos rest; rfl
  · intro loc pos rest; rfl
  · intro loc pos rest; rfl
  · intro loc pos rest x h1 h2 h3 h4
    simp [processLiteral, SourceBuffer.next, h1, h2, h3, h4]
  · intro loc pos rest; rfl

/-- C7 witness: the generic escape arm applied at `x := 'q'`. -/
theorem stringEscape_nul_is_broken_witness :
    processLiteral ⟨"t", 1, 1⟩ ⟨['\\', 'q'], ⟨"t", 1, 1⟩⟩
      = (⟨[], incrementLocation (incrementLocation ⟨"t", 1, 1⟩ '\\') 'q'⟩, .ok 'q') :=
  stringEscape_nul_is_broken.2.2.2.2.2.1 ⟨"t", 1, 1⟩ ⟨"t", 1, 1⟩ [] 'q'
    (by decide) (by decide) (by decide) (by decide)

/-! ### Deep-clone lemmas (C3) -/

/-- Unfolding: deep clone of an array allocates a fresh identity. -/
theorem deepCloneN_vec (id : Nat) (elems : List Value) (c : Nat) :
    deepCloneN (.vec id elems) c
      = (.vec (deepCloneListN elems c).2 (deepCloneListN elems c).1,
         (deepCloneListN elems c).2 + 1) := rfl

/-- Unfolding: deep clone of a data object allocates a fresh identity. -/
theorem deepCloneN_dataObject (id : Nat) (dn : String) (fields : List Value) (c : Nat) :
    deepCloneN (.dataObject id dn fields) c
      = (.dataObject (deepCloneListN fields c).2 dn (deepCloneListN fields c).1,
         (deepCloneListN fields c).2 + 1) := rfl

/-- Unfolding: element-wise deep clone of a non-empty list. -/
theorem deepCloneListN_cons (v : Value) (rest : List Value) (c : Nat) :
    deepCloneListN (v :: rest) c
      = ((deepCloneN v c).1 :: (deepCloneListN rest (deepCloneN v c).2).1,
         (deepCloneListN rest (deepCloneN v c).2).2) := rfl

/-- Unfolding: reachable identities of an array. -/
theorem containerIds_vec (id : Nat) (elems : List Value) :
    containerIds (.vec id elems) = id :: containerIdsList elems := rfl

/-- Unfolding: reachable identities of a data object. -/
theorem containerIds_dataObject (id : Nat) (dn : String) (fields : List Value) :
    containerIds (.dataObject id dn fields) = id :: containerIdsList fields := rfl

/-- Unfolding: reachable identities of a non-empty list. -/
theorem containerIdsList_cons (v : Value) (rest : List Value) :
    containerIdsList (v :: rest) = containerIds v ++ containerIdsList rest := rfl

mutual

/-- Structural equality is reflexive. -/
theorem structEq_refl (v : Value) : structEq v v = true := by
  cases v with
  | none => rfl
  | int n => show (n == n) = true; simp
  | float q => show (q == q) = true; simp
  | bool b => show (b == b) = true; simp
  | str s => show (s == s) = true; simp
  | vec id elems => exact structListEq_refl elems
  | dataObject id dn fields =>
      show (dn == dn && structListEq fields fields) = true
      rw [structListEq_refl fields]; simp
  | token t => show (t == t) = true; simp
  | code c => exact instrListEq_refl c

/-- `structListEq` is reflexive. -/
theorem structListEq_refl (l : List Value) : structListEq l l = true := by
  cases l with
  | nil => rfl
  | cons v rest =>
      show (structEq v v && structListEq rest rest) = true
      rw [structEq_refl v, structListEq_refl rest]
      rfl

/-- `instrListEq` is reflexive. -/
theorem instrListEq_refl (c : List Instruction) : instrListEq c c = true := by
  cases c with
  | nil => rfl
  | cons i rest =>
      cases i with
      | mk loc op =>
          show (loc == loc && opEq op op && instrListEq rest rest) = true
          rw [opEq_refl op, instrListEq_refl rest]
          simp

/-- `opEq` is reflexive. -/
theorem opEq_refl (op : Op) : opEq op op = true := by
  cases op <;> first
    | rfl
    | (rename_i v; exact structEq_refl v)

end

mutual

/-- Deep clone preserves structural equality (the container identities are
renewed, everything else is copied). -/
theorem deepCloneN_structEq (v : Value) (c : Nat) : structEq (deepCloneN v c).1 v = true := by
  cases v with
  | none => rfl
  | int n => show (n == n) = true; simp
  | float q => show (q == q) = true; simp
  | bool b => show (b == b) = true; simp
  | str s => show (s == s) = true; simp
  | vec id elems => exact deepCloneListN_structEq elems c
  | dataObject id dn fields =>
      show (dn == dn && structListEq (deepCloneListN fields c).1 fields) = true
      rw [deepCloneListN_structEq fields c]; simp
  | token t => show (t == t) = true; simp
  | code instrs => exact instrListEq_refl instrs

/-- `deepCloneListN` preserves structural equality element-wise. -/
theorem deepCloneListN_structEq (l : List Value) (c : Nat) :
    structListEq (deepCloneListN l c).1 l = true := by
  cases l with
  | nil => rfl
  | cons v rest =>
      show (structEq (deepCloneN v c).1 v
              && structListEq (deepCloneListN rest (deepCloneN v c).2).1 rest) = true
      rw [deepCloneN_structEq v c, deepCloneListN_structEq rest (deepCloneN v c).2]
      rfl

end

mutual

/-- The identity counter never decreases across a deep clone. -/
theorem deepCloneN_counter_le (v : Value) (c : Nat) : c ≤ (deepCloneN v c).2 := by
  cases v with
  | none => exact Nat.le_refl c
  | int n => exact Nat.le_refl c
  | float q => exact Nat.le_refl c
  | bool b => exact Nat.le_refl c
  | str s => exact Nat.le_refl c
  | token t => exact Nat.le_refl c
  | code instrs => exact Nat.le_refl c
  | vec id elems =>
      have h := deepCloneListN_counter_le elems c
      show c ≤ (deepCloneListN elems c).2 + 1
      omega
  | dataObject id dn fields =>
      have h := deepCloneListN_counter_le fields c
      show c ≤ (deepCloneListN fields c).2 + 1
      omega

/-- The identity counter never decreases across a list deep clone. -/
theorem deepCloneListN_counter_le (l : List Value) (c : Nat) :
    c ≤ (deepCloneListN l c).2 := by
  cases l with
  | nil => exact Nat.le_refl c
  | cons v rest =>
      have h1 := deepCloneN_counter_le v c
      have h2 := deepCloneListN_counter_le rest (deepCloneN v c).2
      show c ≤ (deepCloneListN rest (deepCloneN v c).2).2
      omega

end

mutual

/-- For a value containing no code block, every container identity of the
deep clone is at least the starting counter: all of them are fresh. -/
theorem deepCloneN_ids_ge (v : Value) (c : Nat) (h : noCode v = true) :
    ∀ i ∈ containerIds (deepCloneN v c).1, c ≤ i := by
  cases v with
  | none => intro i hi; exact absurd hi (List.not_mem_nil i)
  | int n => intro i hi; exact absurd hi (List.not_mem_nil i)
  | float q => intro i hi; exact absurd hi (List.not_mem_nil i)
  | bool b => intro i hi; exact absurd hi (List.not_mem_nil i)
  | str s => intro i hi; exact absurd hi (List.not_mem_nil i)
  | token t => intro i hi; exact absurd hi (List.not_mem_nil i)
  | code instrs => exact absurd h (by simp [noCode])
  | vec id elems =>
      intro i hi
      have h' : noCodeList elems = true := h
      rw [deepCloneN_vec, containerIds_vec] at hi
      rcases List.mem_cons.mp hi with hi | hi
      · have := deepCloneListN_counter_le elems c
        omega
      · exact deepCloneListN_ids_ge elems c h' i hi
  | dataObject id dn fields =>
      intro i hi
      have h' : noCodeList fields = true := h
      rw [deepCloneN_dataObject, containerIds_dataObject] at hi
      rcases List.mem_cons.mp hi with hi | hi
      · have := deepCloneListN_counter_le fields c
        omega
      · exact deepCloneListN_ids_ge fields c h' i hi

/-- List version of `deepCloneN_ids_ge`. -/
theorem deepCloneListN_ids_ge (l : List Value) (c : Nat) (h : noCodeList l = true) :
    ∀ i ∈ containerIdsList (deepCloneListN l c).1, c ≤ i := by
  cases l with
  | nil => intro i hi; exact absurd hi (List.not_mem_nil i)
  | cons v rest =>
      intro i hi
      have h' : (noCode v && noCodeList rest) = true := h
      rw [Bool.and_eq_true] at h'
      rw [deepCloneListN_cons, containerIdsList_cons] at hi
      rcases List.mem_append.mp hi with hi | hi
      · exact deepCloneN_ids_ge v c h'.1 i hi
      · have hrec := deepCloneListN_ids_ge rest (deepCloneN v c).2 h'.2 i hi
        have hc := deepCloneN_counter_le v c
        omega

end

/-- Two values share mutable container state exactly when a container
identity is reachable from both. -/
def sharesContainerWith (a b : Value) : Bool :=
  (containerIds a).any (fun i => (containerIds b).contains i)

/-- An array whose only element is a code block whose `PushConstantValue`
operand is another array: the inner array is reachable only through the
code block. -/
def sharedCodeExample : Value :=
  .vec 0 [.code [Instruction.mk Option.none (.pushConstantValue (.vec 1 []))]]

/-- C3 counterexample: the claim promises that mutating any container
reachable from `deep_clone(v)` never changes `v`.  It fails when a container
sits inside a `Code` value: `DeepClone for Value` copies a `Code` payload
with the ordinary `Clone` (value.rs, line 474), which preserves the `Rc`
handles inside the block, so the clone of `sharedCodeExample` still reaches
the inner array cell (identity 1) of the original. -/
theorem deepClone_shares_code_container :
    sharesContainerWith (deepCloneN sharedCodeExample 2).1 sharedCodeExample = true
    ∧ containerIds (deepCloneN sharedCodeExample 2).1 = [2, 1]
    ∧ containerIds sharedCodeExample = [0, 1] :=
  ⟨rfl, rfl, rfl⟩

/-- C3 amended: `deep_clone(v)` is structurally equal to `v` for every value,
and for every value that contains no `Code` block (containers inside code
blocks are shared by reference, as the counterexample shows), every
container identity of the clone is fresh, so mutating a container reachable
from the clone never changes `v`. -/
theorem deepClone_amended (v : Value) (c : Nat) :
    structEq (deepCloneN v c).1 v = true ∧
    (noCode v = true → (∀ i ∈ containerIds v, i < c) →
      ∀ i ∈ containerIds (deepCloneN v c).1, i ∉ containerIds v) := by
  refine ⟨deepCloneN_structEq v c, ?_⟩
  intro hnc hlt i hi hmem
  have h1 := deepCloneN_ids_ge v c hnc i hi
  have h2 := hlt i hmem
  omega

/-- C3 witness: the amended statement applied to a concrete array with the
counter past its identities. -/
theorem deepClone_amended_witness :
    structEq (deepCloneN (.vec 0 [.int 5]) 1).1 (.vec 0 [.int 5]) = true ∧
    (∀ i ∈ containerIds ((deepCloneN (.vec 0 [.int 5]) 1).1),
      i ∉ containerIds (.vec 0 [.int 5])) :=
  ⟨(deepClone_amended (.vec 0 [.int 5]) 1).1,
   (deepClone_amended (.vec 0 [.int 5]) 1).2 rfl
     (by intro i hi; simp [containerIds, containerIdsList] at hi; omega)⟩

/-- C4: when an instruction's operation fails during the execution loop and
a catch frame is active, `execute_code` pops the newest catch frame, sets
`pc` to the recorded handler index minus one so that the trailing increment
lands on the handler, pushes the stringified error message as a String
value, and continues the same loop (the step yields `next`, not an error
`exit`); sorth_interpreter.rs, lines 860-878. -/
theorem execStep_catch_consumes_error
    (name : String) (code : ByteCode) (st st2 : LoopState) (instr : Instruction)
    (e : String) (handler : Nat) (rest : List Nat)
    (hfetch : code.get? st.pc = some instr)
    (hrun : runOp (applyInstrLocation name st instr) instr.op = (st2, .err e))
    (hcatch : st2.catchLocations = rest ++ [handler])
    (hpos : 1 ≤ handler) :
    execStep name code st =
      .next { st2 with
                catchLocations := rest,
                pc := handler,
                interp := { st2.interp with stack := st2.interp.stack ++ [.str e] } } := by
  have hne : handler ≠ 0 := by omega
  simp only [execStep, hfetch, hrun, hcatch, List.getLast?_concat, List.dropLast_concat,
             usizeSub1, hne, if_false, Interp.push, stackPush]
  rw [Nat.sub_add_cancel hpos]

/-- C4 witness: a failing `UnmarkLoopExit` under an active catch frame at
handler index 2. -/
theorem execStep_catch_consumes_error_witness :
    execStep "t" [Instruction.mk Option.none Op.unmarkLoopExit]
        { interp := newInterp, pc := 0, contexts := 0, callStackPushed := false,
          loopLocations := [], catchLocations := [2] } =
      .next { interp := { newInterp with stack := [.str "Unbalanced loop exit marker."] },
              pc := 2, contexts := 0, callStackPushed := false,
              loopLocations := [], catchLocations := [] } := by
  have h := execStep_catch_consumes_error "t"
      [Instruction.mk Option.none Op.unmarkLoopExit]
      { interp := newInterp, pc := 0, contexts := 0, callStackPushed := false,
        loopLocations := [], catchLocations := [2] }
      _ (Instruction.mk Option.none Op.unmarkLoopExit)
      "Unbalanced loop exit marker." 2 [] rfl rfl rfl (by decide)
  simpa using h

/-- C10 witness: the cursor-update cases at concrete buffers. -/
theorem byteBuffer_resize_zero_underflows_witness :
    ByteBuffer.resize ⟨[0, 0, 0], 3⟩ 2 = some ⟨[0, 0], 1⟩
    ∧ ByteBuffer.resize ⟨[0, 0, 0], 1⟩ 4 = some ⟨[0, 0, 0, 0], 1⟩
    ∧ ByteBuffer.resize ⟨[0, 0, 0], 3⟩ 0 = Option.none :=
  ⟨by simpa [listResize] using
      (byteBuffer_resize_zero_underflows ⟨[0, 0, 0], 3⟩ 2).1 (by decide) (by decide),
   by simpa [listResize] using
      (byteBuffer_resize_zero_underflows ⟨[0, 0, 0], 1⟩ 4).2.1 (by decide),
   (byteBuffer_resize_zero_underflows ⟨[0, 0, 0], 3⟩ 0).2.2.1⟩

end RSorth
